import Mathlib

/-
  Verification of the AhmedLab repository (src/Gedo.h, src/Gedo.cpp,
  src/AhmedLab.h, src/AhmedLab.cpp) against its natural-language
  specification.

  Shallow embedding conventions:
  - size_t values are modelled as Nat; arithmetic that can wrap on a
    64-bit size_t is written with an explicit modulus W = 2^64.
  - Pointers are modelled as Nat addresses.  Pointer comparisons in the
    source compare addresses; pointer arithmetic is address arithmetic.
  - double is modelled as an exact rational (IEEE rounding is not
    modelled; the facts proved below are robust to rounding because the
    divergences are many orders of magnitude).
  - int64_t is modelled as Int (exact; the inputs used in the theorems
    stay far below the overflow range).
  - C strings are modelled as the list of their characters before the
    NUL terminator (StringLength counts exactly those).
  - bool-returning C functions are modelled as Bool-valued functions;
    out-parameters become extra components of the result.
  - while loops are modelled by structural recursion on an explicit
    fuel argument that is a syntactic bound on the number of
    iterations (each loop below advances a cursor bounded by the
    buffer size, so size - cursor iterations always suffice).
-/

namespace AhmedLab

/-- The modulus of a 64-bit size_t. -/
def W : Nat := 2 ^ 64

/-! ## Memory blocks and the linear (arena) allocator, src/Gedo.h and
src/Gedo.cpp.

Source (Gedo.h 415-419):
  struct MemoryBlock { uint8_t* data = NULL; size_t size = 0; };
The data pointer is modelled as a Nat address (NULL = 0). -/

structure MemoryBlock where
  data : Nat
  size : Nat
deriving DecidableEq

/-- Source (Gedo.cpp 52-57):
  bool IsPointerInsideMemoryBlock(const uint8_t* ptr, MemoryBlock block)
  { begin = block.data; end = block.data + block.size;
    return (ptr >= begin && ptr < end); } -/
def IsPointerInsideMemoryBlock (ptr : Nat) (block : MemoryBlock) : Bool :=
  decide (block.data ≤ ptr) && decide (ptr < block.data + block.size)

/-- Source (Gedo.cpp 59-63):
  bool IsMemoryBlockInside(MemoryBlock big, MemoryBlock small)
  { return IsPointerInsideMemoryBlock(small.data, big) &&
           IsPointerInsideMemoryBlock(small.data + small.size, big); } -/
def IsMemoryBlockInside (big small : MemoryBlock) : Bool :=
  IsPointerInsideMemoryBlock small.data big &&
    IsPointerInsideMemoryBlock (small.data + small.size) big

/-- Source (Gedo.h): struct LinearAllocator holds the arena MemoryBlock and a
size_t offset. -/
structure LinearAllocator where
  arena : MemoryBlock
  offset : Nat
deriving DecidableEq

/-- Source (Gedo.cpp 109-112):
  void LinearAllocator::ResetAllocator() { offset = 0; } -/
def ResetAllocator (a : LinearAllocator) : LinearAllocator :=
  { a with offset := 0 }

/-- Source (Gedo.cpp 114-127):
  MemoryBlock LinearAllocator::AllocateMemoryBlock(size_t bytes)
  { MemoryBlock result;
    if ((offset + bytes) <= arena.size)
    { result.size = bytes; result.data = offset + arena.data;
      offset += bytes; ZeroMemoryBlock(result); return result; }
    GEDO_ASSERT_MSG("don't have enough space."); return result; }

The comparison offset + bytes <= arena.size is evaluated on size_t, so the
sum wraps modulo 2^64; the wrapped value is also what offset += bytes
stores.  The failure path (assert + default-initialised block) is modelled
as none with the allocator unchanged. -/
def AllocateMemoryBlock (a : LinearAllocator) (bytes : Nat) :
    Option MemoryBlock × LinearAllocator :=
  if (a.offset + bytes) % W ≤ a.arena.size then
    (some { data := a.offset + a.arena.data, size := bytes },
     { a with offset := (a.offset + bytes) % W })
  else
    (none, a)

/-- Source (Gedo.cpp 129-139):
  bool LinearAllocator::FreeMemoryBlock(MemoryBlock& block)
  { // no-op for the allocator.
    if (IsMemoryBlockInside(arena, block))
    { block.size = 0; block.data = NULL; return true; }
    return false; }

Result components: the returned bool, the (possibly invalidated) block and
the allocator after the call (the function never touches offset or arena). -/
def FreeMemoryBlock (a : LinearAllocator) (block : MemoryBlock) :
    Bool × MemoryBlock × LinearAllocator :=
  if IsMemoryBlockInside a.arena block then
    (true, { data := 0, size := 0 }, a)
  else
    (false, block, a)

/-- Predicate written from the words of claim C3: the block lies fully
inside the arena region, a block whose last byte is the arena's last byte
included.  It is compared against the source-derived FreeMemoryBlock. -/
def BlockFullyInside (big small : MemoryBlock) : Prop :=
  big.data ≤ small.data ∧ small.data + small.size ≤ big.data + big.size

instance (big small : MemoryBlock) : Decidable (BlockFullyInside big small) := by
  unfold BlockFullyInside
  infer_instance

/-! ## Allocation traces for the linear allocator (claim C8). -/

/-- Two memory blocks occupy disjoint address ranges. -/
def BlocksDisjoint (b1 b2 : MemoryBlock) : Prop :=
  b1.data + b1.size ≤ b2.data ∨ b2.data + b2.size ≤ b1.data

instance : DecidableRel BlocksDisjoint := fun b1 b2 => by
  unfold BlocksDisjoint
  infer_instance

/-- Run a sequence of AllocateMemoryBlock calls, collecting the blocks of
the successful calls (a failed call leaves the allocator unchanged and
contributes no block). -/
def runAllocs (a : LinearAllocator) : List Nat → List MemoryBlock × LinearAllocator
  | [] => ([], a)
  | r :: rs =>
    match AllocateMemoryBlock a r with
    | (some b, a1) =>
      let rest := runAllocs a1 rs
      (b :: rest.1, rest.2)
    | (none, a1) => runAllocs a1 rs

/-! ## Array<T>, src/Gedo.h 577-707 (named GArray here because Lean already
has a type called Array).

Fields of the C struct: an Allocator pointer, a MemoryBlock block and a
size_t count.  The embedding instantiates the element size at 1 byte
(sizeof(T) = 1, exactly as in String = Array<char>, Gedo.h 748, the
instantiation the scanner uses), so capacity() = block.size / sizeof(T)
equals block.size and is stored directly as cap, and the byte-wise
GEDO_MEMCPY of block.size bytes in reserve copies exactly the old capacity
in elements.  The data function models the contents of the backing block;
bytes freshly obtained from an allocator are zero-filled
(ZeroMemoryBlock), modelled as the default element. -/

structure GArray (T : Type) where
  count : Nat
  cap : Nat
  data : Nat → T

/-- Source (Gedo.h 634-637):
  size_t capacity() const { return block.size / sizeof(T); } -/
def GArray.capacity {T : Type} (a : GArray T) : Nat := a.cap

/-- Source (Gedo.h 638-641): size_t size() const { return count; } -/
def GArray.size {T : Type} (a : GArray T) : Nat := a.count

/-- Source (Gedo.h 668-671): void clear() { count = 0; } -/
def GArray.clear {T : Type} (a : GArray T) : GArray T :=
  { a with count := 0 }

/-- Source (Gedo.h 682-685): void pop_back() { count--; } — a size_t
decrement, so it wraps to 2^64 - 1 when count = 0. -/
def GArray.pop_back {T : Type} (a : GArray T) : GArray T :=
  { a with count := (a.count + (W - 1)) % W }

/-- Source (Gedo.h 694-706):
  void reserve(size_t s)
  { if (capacity() < s)
    { MemoryBlock newBlock = Allocate(s * sizeof(T), *allocator);
      if (block.data)
      { GEDO_MEMCPY(newBlock.data, block.data, block.size);
        Deallocate(block, *allocator); }
      block = newBlock; } }
With sizeof(T) = 1 the new capacity is s; the memcpy of block.size bytes
copies the old cap elements and the rest of the new block is the
allocator's zero fill (default). -/
def GArray.reserve {T : Type} [Inhabited T] (a : GArray T) (s : Nat) : GArray T :=
  if a.cap < s then
    { a with
      cap := s,
      data := fun i => if i < a.cap then a.data i else default }
  else a

/-- Source (Gedo.h 686-693):
  void resize(size_t s) { if (capacity() < s) { reserve(s); } count = s; } -/
def GArray.resize {T : Type} [Inhabited T] (a : GArray T) (s : Nat) : GArray T :=
  let a1 := if a.cap < s then a.reserve s else a
  { a1 with count := s }

/-- Source (Gedo.h 672-681):
  void push_back(const T& d)
  { if (size() >= capacity())
    { const size_t s = size(); resize(s ? 2 * s : 8); count = s; }
    data()[count++] = d; }
The products 2 * s and the increment count++ are size_t arithmetic, hence
the explicit modulus. -/
def GArray.push_back {T : Type} [Inhabited T] (a : GArray T) (d : T) : GArray T :=
  let a1 :=
    if a.cap ≤ a.count then
      let s := a.count
      let a2 := a.resize (if s ≠ 0 then (2 * s) % W else 8)
      { a2 with count := s }
    else a
  { a1 with
    data := Function.update a1.data a1.count d,
    count := (a1.count + 1) % W }

/-! ## Buffer and the scanning helpers, src/Gedo.cpp 847-995.

Source (Gedo.h 776-781):
  struct Buffer { const char* data = NULL; size_t size = 0; size_t cursor = 0; };
The bytes reachable through the data pointer are modelled as a total
function from index to character: the buffer proper is indices 0..size-1,
and applying the function beyond that models a read past the end of the
buffer (for buffers made by CreateBufferFromString the byte at index size
is the NUL terminator of the backing C string). -/

structure Buffer where
  data : Nat → Char
  size : Nat
  cursor : Nat

/-- Source (Gedo.cpp 849-853):
  char Peek(const Buffer& buffer)
  { GEDO_ASSERT(buffer.cursor < buffer.size); return buffer.data[buffer.cursor]; }
The model function is total; theorems that depend on Peek supply
cursor < size, matching the assert. -/
def Peek (b : Buffer) : Char := b.data b.cursor

/-- Indices at which SkipToNextLine (Gedo.cpp 894-900) applies buffer.data:
  while (buffer.cursor < buffer.size && Peek(buffer) != '\n') buffer.cursor++;
Peek reads the current cursor each time the left conjunct holds; the fuel
(size - cursor at entry) bounds the iteration count, since each iteration
advances the cursor towards size. -/
def SkipToNextLineReads : Nat → Buffer → List Nat
  | 0, _ => []
  | fuel + 1, b =>
    if b.cursor < b.size then
      if b.data b.cursor ≠ '\n' then
        b.cursor :: SkipToNextLineReads fuel { b with cursor := b.cursor + 1 }
      else [b.cursor]
    else []

/-- Indices at which SkipSingleLineComment (Gedo.cpp 910-918) applies
buffer.data:
  if (buffer.data[buffer.cursor + 0] == '\\' &&
      buffer.data[buffer.cursor + 1] == '\\')
  { buffer.cursor += 2; SkipToNextLine(buffer); }
The index cursor + 0 is always read; cursor + 1 is read whenever the first
comparison succeeds (the && short-circuits), with no bounds check on
either; the comment body is then scanned by SkipToNextLine. -/
def SkipSingleLineCommentReads (b : Buffer) : List Nat :=
  if b.data b.cursor = '\\' then
    if b.data (b.cursor + 1) = '\\' then
      b.cursor :: (b.cursor + 1) ::
        SkipToNextLineReads (b.size - (b.cursor + 2)) { b with cursor := b.cursor + 2 }
    else [b.cursor, b.cursor + 1]
  else [b.cursor]

/-- The while loop of ParseStringLiteral (Gedo.cpp 968-972):
  while (buffer.cursor < buffer.size && Peek(buffer) != '"')
  { Append(result, Peek(buffer)); buffer.cursor++; }
Fuel size - cursor at entry bounds the iterations. -/
def ParseStringLiteralLoop : Nat → Buffer → List Char → Buffer × List Char
  | 0, b, acc => (b, acc)
  | fuel + 1, b, acc =>
    if b.cursor < b.size ∧ Peek b ≠ '"' then
      ParseStringLiteralLoop fuel { b with cursor := b.cursor + 1 } (acc ++ [Peek b])
    else (b, acc)

/-- Source (Gedo.cpp 962-977):
  bool ParseStringLiteral(Buffer& buffer, String& result)
  { if (Peek(buffer) == '"')
    { result.clear(); buffer.cursor++;
      while (buffer.cursor < buffer.size && Peek(buffer) != '"')
      { Append(result, Peek(buffer)); buffer.cursor++; }
      buffer.cursor++; return true; }
    return false; }
Result components: the returned bool, the buffer after the call and the
collected literal. -/
def ParseStringLiteral (b : Buffer) : Bool × Buffer × List Char :=
  if Peek b = '"' then
    let b1 : Buffer := { b with cursor := b.cursor + 1 }
    let r := ParseStringLiteralLoop (b1.size - b1.cursor) b1 []
    (true, { r.1 with cursor := r.1.cursor + 1 }, r.2)
  else (false, b, [])

/-- Source (Gedo.cpp 498-506): StringLength counts the characters before
the NUL terminator; a model string is exactly that character list. -/
def StringLength (word : List Char) : Nat := word.length

/-- Source (Gedo.cpp 979-995):
  bool CompareWordAndSkip(Buffer& buffer, const char* word)
  { const size_t length = StringLength(word);
    if (buffer.cursor + length < buffer.size)
    { for (size_t i = 0; i < length; ++i)
      { if (buffer.data[buffer.cursor + i] != word[i]) return false; }
      buffer.cursor += length; return true; }
    return false; }
Note the strict < in the guard.  The for loop returns false at the first
mismatch with the buffer unchanged, so it succeeds exactly when every
position matches. -/
def CompareWordAndSkip (b : Buffer) (word : List Char) : Bool × Buffer :=
  let length := StringLength word
  if b.cursor + length < b.size then
    if (List.range length).all
        (fun i => b.data (b.cursor + i) == word.getD i default) then
      (true, { b with cursor := b.cursor + length })
    else (false, b)
  else (false, b)

/-! ## Token types and the Tokenize entry point, src/AhmedLab.h 344-392 and
src/AhmedLab.cpp 551-557. -/

inductive TokenType
  | KEY_WORD_IF
  | KEY_WORD_WHILE
  | IDENTIFIER
  | LITERAL
  | LOGICAL_LT
  | LOGICAL_GT
  | LOGICAL_GTE
  | LOGICAL_LTE
  | LOGICAL_EQUALS
  | LOGICAL_NOT_EQUALS
  | LOGICAL_NOT
  | LOGICAL_AND
  | LOGICAL_OR
  | OPERATOR_PLUS
  | OPERATOR_MINUS
  | OPERATOR_MULTIPLY
  | OPERATOR_DIVIDE
  | OPERATOR_ASSIGN
  | LEFT_PARAN
  | RIGHT_PARAN
  | COMMA
  | SEMICOL
  | LEFT_SQUARE_BRACKET
  | RIGHT_SQUARE_BRACKET
deriving DecidableEq

/-- Source (AhmedLab.h 375-383): struct Token holds a TokenType and a C
union of char name[MAX_VARIABLE_NAME] and double value; the union is
modelled as the two payload fields side by side (only the one matching the
type is meaningful). -/
structure Token where
  type : TokenType
  name : List Char
  value : ℚ

/-- Source (AhmedLab.h 385-390):
  struct LexerResult { Array<Token> tokens; bool success = false;
                       size_t errorLocation = 0; }; -/
structure LexerResult where
  tokens : List Token
  success : Bool
  errorLocation : Nat

/-- Source (AhmedLab.cpp 551-557):
  LexerResult Tokenize(Buffer& buffer)
  { LexerResult result; result.success = false; result.errorLocation = 2;
    return result; }
The function is an unimplemented stub: it ignores the buffer entirely and
returns failure at location 2 with the default-empty token array. -/
def Tokenize (_buffer : Buffer) : LexerResult :=
  { tokens := [], success := false, errorLocation := 2 }

/-! ## Text-to-number conversion, src/Gedo.cpp 997-1095.

Doubles are modelled as exact rationals; size_t values as Nat with
explicit modulus W where the source arithmetic can wrap. -/

/-- The dot-scanning loop of StringToFloat (Gedo.cpp 1005-1016):
  size_t dot = length;
  for (size_t i = 0; i < length; ++i)
  { if (string[i] == '.') { if (dot != length) return false; dot = i; } }
Arguments: the sentinel length, the remaining characters, the index i of
the first of them, the dot position found so far.  none models the early
return false. -/
def dotScan (length : Nat) : List Char → Nat → Nat → Option Nat
  | [], _, dot => some dot
  | c :: rest, i, dot =>
    if c = '.' then
      if dot ≠ length then none else dotScan length rest (i + 1) i
    else dotScan length rest (i + 1) dot

/-- The accumulation loop of StringToFloat (Gedo.cpp 1018-1049):
  result = 0.0; size_t power = dot - 1;
  for (size_t i = 0; i < length; ++i)
  { if (string[i] != '.')
    { if (string[i] != '0')
      { double basePower = 1.0;
        if (power >= 0) { for (int k = 0; k < power; k++) basePower *= 10.0; }
        else if (power < 0) { ... }
        result += (string[i] - '0') * basePower; }
      power--; }
    else { power = -1; } }
power is size_t, so power >= 0 is always true and the power < 0 branch is
dead code; power-- wraps through W and the assignment power = -1 stores
W - 1.  basePower is therefore 10^power with the unsigned power (the int
loop counter k overflows — undefined behaviour in C — once power exceeds
INT_MAX; the embedding takes the mathematical iteration count, which is
also the most charitable reading).  The character arithmetic
string[i] - '0' is the exact integer c.toNat - 48. -/
def floatLoop : List Char → Nat → ℚ → ℚ
  | [], _, result => result
  | c :: rest, power, result =>
    if c ≠ '.' then
      floatLoop rest ((power + (W - 1)) % W)
        (if c ≠ '0' then result + (((c.toNat : Int) - 48 : Int) : ℚ) * 10 ^ power
          else result)
    else
      floatLoop rest (W - 1) result

/-- Source (Gedo.cpp 997-1051):
  bool StringToFloat(const char* string, double& result)
  { const size_t length = StringLength(string);
    if (!length) return false;
    ... dot scan ...; result = 0.0; size_t power = dot - 1; ... loop ...;
    return true; }
size_t power = dot - 1 wraps to W - 1 when dot = 0. -/
def StringToFloat (s : List Char) : Option ℚ :=
  if s.length = 0 then none
  else
    match dotScan s.length s 0 s.length with
    | none => none
    | some dot => some (floatLoop s ((dot + (W - 1)) % W) 0)

/-- The sign-scanning loop of StringToInt (Gedo.cpp 1061-1073):
  bool isNegative = false;
  for (size_t i = 0; i < length; ++i)
  { if (string[i] == '-') { if (isNegative) return false; isNegative = true; } }
none models the early return false on a second '-'. -/
def signScan : List Char → Bool → Option Bool
  | [], neg => some neg
  | c :: rest, neg =>
    if c = '-' then
      if neg then none else signScan rest true
    else signScan rest neg

/-- The accumulation loop of StringToInt (Gedo.cpp 1075-1089):
  result = 0.0; size_t power = length - 1;
  for (size_t i = 0; i < length; ++i)
  { if (string[i] != '0')
    { int64_t basePower = 1.0; for (int k = 0; k < power; k++) basePower *= 10.0;
      result += (string[i] - '0') * basePower; }
    power--; }
Note that every character other than '0' — the '-' sign included —
participates with value string[i] - '0' (for '-' that is -3).  int64_t is
modelled as exact Int (the inputs used below stay far below overflow). -/
def intLoop : List Char → Nat → Int → Int
  | [], _, result => result
  | c :: rest, power, result =>
    intLoop rest ((power + (W - 1)) % W)
      (if c ≠ '0' then result + ((c.toNat : Int) - 48) * 10 ^ power else result)

/-- Source (Gedo.cpp 1053-1095):
  bool StringToInt(const char* string, int64_t& result)
  { const size_t length = StringLength(string);
    if (!length) return false;
    ... sign scan ...; ... accumulation with power = length - 1 ...;
    if (isNegative) result *= -1; return true; }
length >= 1 on the path that reaches the loop, so length - 1 does not
wrap. -/
def StringToInt (s : List Char) : Option Int :=
  if s.length = 0 then none
  else
    match signScan s false with
    | none => none
    | some isNegative =>
      some (if isNegative then intLoop s (s.length - 1) 0 * (-1)
            else intLoop s (s.length - 1) 0)

/-! ## Theorems. -/

/-- Claim C3, as stated, is false: for the arena block with base 0 and size
4, the block with base 0 and size 4 lies fully inside the arena (its last
byte is the arena's last byte), yet FreeMemoryBlock returns false, because
IsMemoryBlockInside requires the one-past-the-end pointer to be strictly
below the arena's one-past-the-end pointer. -/
theorem C3_free_full_arena_block_counterexample :
    ¬ (((FreeMemoryBlock ⟨⟨0, 4⟩, 0⟩ ⟨0, 4⟩).1 = true) ↔
        BlockFullyInside (⟨0, 4⟩ : MemoryBlock) ⟨0, 4⟩) := by
  decide

/-- Claim C3 (amended): FreeMemoryBlock(b) returns true iff b.data and
b.data + b.size both lie in the half-open arena interval
[arena.data, arena.data + arena.size) — so a block whose one-past-the-end
pointer equals the arena's one-past-the-end pointer is rejected — and the
call never changes the allocator (in particular its offset). -/
theorem C3_free_is_strict_inside_check_and_preserves_offset
    (a : LinearAllocator) (b : MemoryBlock) :
    ((FreeMemoryBlock a b).1 = true ↔
      (a.arena.data ≤ b.data ∧ b.data < a.arena.data + a.arena.size ∧
        a.arena.data ≤ b.data + b.size ∧
        b.data + b.size < a.arena.data + a.arena.size)) ∧
    (FreeMemoryBlock a b).2.2 = a := by
  unfold FreeMemoryBlock IsMemoryBlockInside IsPointerInsideMemoryBlock
  constructor
  · by_cases h : (decide (a.arena.data ≤ b.data) &&
        decide (b.data < a.arena.data + a.arena.size) &&
        (decide (a.arena.data ≤ b.data + b.size) &&
          decide (b.data + b.size < a.arena.data + a.arena.size))) = true
    · simp only [h, if_true]
      simp only [Bool.and_eq_true, decide_eq_true_eq] at h
      simp only [true_iff]
      exact ⟨h.1.1, h.1.2, h.2.1, h.2.2⟩
    · simp only [h, if_false, Bool.false_eq_true, false_iff]
      simp only [Bool.and_eq_true, decide_eq_true_eq] at h
      intro hc
      exact h ⟨⟨hc.1, hc.2.1⟩, hc.2.2.1, hc.2.2.2⟩
  · by_cases h : (decide (a.arena.data ≤ b.data) &&
        decide (b.data < a.arena.data + a.arena.size) &&
        (decide (a.arena.data ≤ b.data + b.size) &&
          decide (b.data + b.size < a.arena.data + a.arena.size))) = true
    · simp [h]
    · simp [h]

theorem runAllocs_arena (a : LinearAllocator) (reqs : List Nat) :
    (runAllocs a reqs).2.arena = a.arena := by
  induction reqs generalizing a with
  | nil => rfl
  | cons r rs ih =>
    unfold runAllocs AllocateMemoryBlock
    by_cases h : (a.offset + r) % W ≤ a.arena.size
    · simp only [h, if_true]
      exact ih _
    · simp only [h, if_false]
      exact ih _

theorem runAllocs_offset_le (a : LinearAllocator) (reqs : List Nat)
    (hsum : a.offset + reqs.sum < W) (h0 : a.offset ≤ a.arena.size) :
    (runAllocs a reqs).2.offset ≤ a.arena.size := by
  induction reqs generalizing a with
  | nil => exact h0
  | cons r rs ih =>
    unfold runAllocs AllocateMemoryBlock
    simp only [List.sum_cons] at hsum
    by_cases h : (a.offset + r) % W ≤ a.arena.size
    · simp only [h, if_true]
      have hlt : a.offset + r < W := by omega
      have hmod : (a.offset + r) % W = a.offset + r := Nat.mod_eq_of_lt hlt
      refine ih { a with offset := (a.offset + r) % W } ?_ ?_
      · simp only [hmod]
        omega
      · rw [hmod] at h ⊢
        exact h
    · simp only [h, if_false]
      refine ih a ?_ h0
      omega

theorem runAllocs_offset_ge (a : LinearAllocator) (reqs : List Nat)
    (hsum : a.offset + reqs.sum < W) :
    a.offset ≤ (runAllocs a reqs).2.offset := by
  induction reqs generalizing a with
  | nil => exact Nat.le_refl _
  | cons r rs ih =>
    simp only [List.sum_cons] at hsum
    unfold runAllocs AllocateMemoryBlock
    by_cases h : (a.offset + r) % W ≤ a.arena.size
    · simp only [h, if_true]
      have hmod : (a.offset + r) % W = a.offset + r :=
        Nat.mod_eq_of_lt (by omega)
      rw [hmod]
      have hrec := ih { a with offset := a.offset + r }
        (show a.offset + r + rs.sum < W by omega)
      dsimp only at hrec
      omega
    · simp only [h, if_false]
      exact ih a (by omega)

theorem runAllocs_blocks_bounds (a : LinearAllocator) (reqs : List Nat)
    (hsum : a.offset + reqs.sum < W) :
    ∀ b ∈ (runAllocs a reqs).1,
      a.arena.data + a.offset ≤ b.data ∧
        b.data + b.size ≤ a.arena.data + (runAllocs a reqs).2.offset := by
  induction reqs generalizing a with
  | nil => intro b hb; cases hb
  | cons r rs ih =>
    simp only [List.sum_cons] at hsum
    unfold runAllocs AllocateMemoryBlock
    by_cases h : (a.offset + r) % W ≤ a.arena.size
    · simp only [h, if_true]
      have hmod : (a.offset + r) % W = a.offset + r :=
        Nat.mod_eq_of_lt (by omega)
      rw [hmod]
      intro b hb
      rcases List.mem_cons.mp hb with hb | hb
      · subst hb
        have hoff := runAllocs_offset_ge { a with offset := a.offset + r } rs
          (show a.offset + r + rs.sum < W by omega)
        dsimp only at hoff ⊢
        constructor
        · omega
        · omega
      · have hrec := ih { a with offset := a.offset + r }
          (show a.offset + r + rs.sum < W by omega) b hb
        dsimp only at hrec ⊢
        constructor
        · omega
        · exact hrec.2
    · simp only [h, if_false]
      intro b hb
      exact ih a (by omega) b hb

theorem runAllocs_pairwise_disjoint (a : LinearAllocator) (reqs : List Nat)
    (hsum : a.offset + reqs.sum < W) :
    ((runAllocs a reqs).1).Pairwise BlocksDisjoint := by
  induction reqs generalizing a with
  | nil => exact List.Pairwise.nil
  | cons r rs ih =>
    simp only [List.sum_cons] at hsum
    unfold runAllocs AllocateMemoryBlock
    by_cases h : (a.offset + r) % W ≤ a.arena.size
    · simp only [h, if_true]
      have hmod : (a.offset + r) % W = a.offset + r :=
        Nat.mod_eq_of_lt (by omega)
      rw [hmod]
      refine List.Pairwise.cons ?_
        (ih { a with offset := a.offset + r }
          (show a.offset + r + rs.sum < W by omega))
      intro b hb
      have hbd := runAllocs_blocks_bounds { a with offset := a.offset + r } rs
        (show a.offset + r + rs.sum < W by omega) b hb
      dsimp only at hbd
      unfold BlocksDisjoint
      left
      dsimp only
      omega
    · simp only [h, if_false]
      exact ih a (by omega)

/-- Claim C8 (amended): starting from a fresh LinearAllocator over a region
of size S, for every sequence of allocation requests whose total size is
below 2^64 (so that the size_t sum offset + bytes in the bounds check
cannot wrap), the blocks returned by the successful calls are pairwise
disjoint, the offset never exceeds S (instantiating the request list at
every prefix gives the bound after every call), and after ResetAllocator a
subsequent AllocateMemoryBlock(S) for the full arena size succeeds.  The
original claim, without the no-wraparound bound, is refuted by
C8_overflowing_request_counterexample. -/
theorem C8_fresh_arena_traces_disjoint_and_bounded (S base : Nat)
    (reqs : List Nat) (hsum : reqs.sum < W) :
    (runAllocs ⟨⟨base, S⟩, 0⟩ reqs).2.offset ≤ S ∧
    ((runAllocs ⟨⟨base, S⟩, 0⟩ reqs).1).Pairwise BlocksDisjoint ∧
    (AllocateMemoryBlock
      (ResetAllocator (runAllocs ⟨⟨base, S⟩, 0⟩ reqs).2) S).1.isSome = true := by
  refine ⟨?_, ?_, ?_⟩
  · exact runAllocs_offset_le ⟨⟨base, S⟩, 0⟩ reqs
      (by simpa using hsum) (Nat.zero_le S)
  · exact runAllocs_pairwise_disjoint ⟨⟨base, S⟩, 0⟩ reqs (by simpa using hsum)
  · have harena := runAllocs_arena ⟨⟨base, S⟩, 0⟩ reqs
    unfold ResetAllocator AllocateMemoryBlock
    dsimp only
    rw [harena]
    have hle : (0 + S) % W ≤ (⟨base, S⟩ : MemoryBlock).size := by
      dsimp only
      rw [Nat.zero_add]
      exact Nat.mod_le S W
    rw [if_pos hle]
    rfl

/-- Witness for C8 at the concrete trace S = 4, base = 0, requests [1, 2]. -/
theorem C8_fresh_arena_traces_disjoint_and_bounded_witness :
    ([1, 2] : List Nat).sum < W ∧
    ((runAllocs ⟨⟨0, 4⟩, 0⟩ [1, 2]).2.offset ≤ 4 ∧
      ((runAllocs ⟨⟨0, 4⟩, 0⟩ [1, 2]).1).Pairwise BlocksDisjoint ∧
      (AllocateMemoryBlock
        (ResetAllocator (runAllocs ⟨⟨0, 4⟩, 0⟩ [1, 2]).2) 4).1.isSome = true) :=
  ⟨by decide, C8_fresh_arena_traces_disjoint_and_bounded 4 0 [1, 2] (by decide)⟩

/-- Claim C8, as stated (with no bound on the request sizes), is false: on
a fresh arena of size 10 the three requests [5, 2^64 - 3, 1] all succeed —
the size_t sum 5 + (2^64 - 3) wraps to 2, which passes the bounds check —
and the third returned block, bytes [2, 3), overlaps the first, bytes
[0, 5). -/
theorem C8_overflowing_request_counterexample :
    (runAllocs ⟨⟨0, 10⟩, 0⟩ [5, W - 3, 1]).1 =
      [⟨0, 5⟩, ⟨5, W - 3⟩, ⟨2, 1⟩] ∧
    ¬ BlocksDisjoint ⟨0, 5⟩ ⟨2, 1⟩ := by
  decide

theorem GArray.reserve_count {T : Type} [Inhabited T] (a : GArray T) (s : Nat) :
    (a.reserve s).count = a.count := by
  unfold GArray.reserve
  split_ifs with h
  · rfl
  · rfl

theorem GArray.reserve_cap {T : Type} [Inhabited T] (a : GArray T) (s : Nat) :
    (a.reserve s).cap = max a.cap s := by
  unfold GArray.reserve
  split_ifs with h
  · dsimp only
    omega
  · omega

theorem GArray.reserve_data_of_lt {T : Type} [Inhabited T] (a : GArray T)
    (s i : Nat) (h : i < a.cap) : (a.reserve s).data i = a.data i := by
  unfold GArray.reserve
  split_ifs with hc
  · dsimp only
    rw [if_pos h]
  · rfl

theorem GArray.resize_count {T : Type} [Inhabited T] (a : GArray T) (s : Nat) :
    (a.resize s).count = s := by
  unfold GArray.resize
  split_ifs with h
  · rfl
  · rfl

theorem GArray.resize_cap {T : Type} [Inhabited T] (a : GArray T) (s : Nat) :
    (a.resize s).cap = max a.cap s := by
  unfold GArray.resize
  split_ifs with h
  · dsimp only
    rw [GArray.reserve_cap]
  · dsimp only
    omega

theorem GArray.resize_data_of_lt {T : Type} [Inhabited T] (a : GArray T)
    (s i : Nat) (h : i < a.cap) : (a.resize s).data i = a.data i := by
  unfold GArray.resize
  split_ifs with hc
  · dsimp only
    exact GArray.reserve_data_of_lt a s i h
  · rfl

/-- Claim C4, as stated, is false: the state with count = capacity = 1 is
reachable (reserve(1) on an empty array followed by one push_back), and a
further push_back grows the capacity to 2, not to max(8, 2 * 1) = 8,
because the source grows to (s ? 2 * s : 8), applying the floor of 8 only
when the count is zero. -/
theorem C4_small_capacity_counterexample :
    (GArray.push_back (GArray.reserve ⟨0, 0, fun _ => (0 : Nat)⟩ 1) 7).count =
      (GArray.push_back (GArray.reserve ⟨0, 0, fun _ => (0 : Nat)⟩ 1) 7).cap ∧
    (GArray.push_back
      (GArray.push_back (GArray.reserve ⟨0, 0, fun _ => (0 : Nat)⟩ 1) 7) 9).cap = 2 ∧
    (2 : Nat) ≠
      max 8 (2 * (GArray.push_back (GArray.reserve ⟨0, 0, fun _ => (0 : Nat)⟩ 1) 7).cap) := by
  decide

/-- Claim C4 (amended): for every Array<T> state with count = capacity (and
capacity below 2^63, so the size_t product 2 * count cannot wrap), push_back
grows the capacity to exactly 2 * capacity when the count is nonzero and to
exactly 8 when it is zero — not to max(8, 2 * capacity): for capacities 1,
2, 3, reachable via reserve, the new capacity is 2 * capacity < 8
(C4_small_capacity_counterexample) — and all previously stored elements are
preserved unchanged by the growth, the new element being written at index
count. -/
theorem C4_push_back_growth {T : Type} [Inhabited T] (a : GArray T) (d : T)
    (hfull : a.count = a.cap) (hbound : a.cap < 2 ^ 63) :
    (a.push_back d).cap = (if a.cap = 0 then 8 else 2 * a.cap) ∧
    (∀ i, i < a.count → (a.push_back d).data i = a.data i) ∧
    (a.push_back d).data a.count = d := by
  have hpow : (2 : Nat) ^ 64 = 2 * 2 ^ 63 := by norm_num
  simp only [GArray.push_back]
  rw [if_pos hfull.ge]
  by_cases hz : a.count = 0
  · rw [if_neg (show ¬ a.count ≠ 0 from not_not_intro hz)]
    have hc0 : a.cap = 0 := by omega
    refine ⟨?_, ?_, ?_⟩
    · dsimp only
      rw [GArray.resize_cap, hc0]
      norm_num
    · intro i hi
      exact absurd hi (by omega)
    · dsimp only
      rw [Function.update_same]
  · rw [if_pos hz]
    have hmod : (2 * a.count) % W = 2 * a.count := by
      apply Nat.mod_eq_of_lt
      unfold W
      omega
    refine ⟨?_, ?_, ?_⟩
    · dsimp only
      rw [hmod, GArray.resize_cap, hfull]
      rw [if_neg (show ¬ a.cap = 0 by omega)]
      omega
    · intro i hi
      dsimp only
      rw [Function.update_noteq (show i ≠ a.count by omega)]
      exact GArray.resize_data_of_lt a _ i (by omega)
    · dsimp only
      rw [Function.update_same]

/-- Witness for C4 at the concrete state count = capacity = 1. -/
theorem C4_push_back_growth_witness :
    ((⟨1, 1, fun _ => (0 : Nat)⟩ : GArray Nat).count =
        (⟨1, 1, fun _ => (0 : Nat)⟩ : GArray Nat).cap ∧
      (⟨1, 1, fun _ => (0 : Nat)⟩ : GArray Nat).cap < 2 ^ 63) ∧
    ((GArray.push_back ⟨1, 1, fun _ => (0 : Nat)⟩ 5).cap =
        (if (⟨1, 1, fun _ => (0 : Nat)⟩ : GArray Nat).cap = 0 then 8
          else 2 * (⟨1, 1, fun _ => (0 : Nat)⟩ : GArray Nat).cap) ∧
      (∀ i, i < (⟨1, 1, fun _ => (0 : Nat)⟩ : GArray Nat).count →
        (GArray.push_back ⟨1, 1, fun _ => (0 : Nat)⟩ 5).data i =
          (⟨1, 1, fun _ => (0 : Nat)⟩ : GArray Nat).data i) ∧
      (GArray.push_back ⟨1, 1, fun _ => (0 : Nat)⟩ 5).data
          (⟨1, 1, fun _ => (0 : Nat)⟩ : GArray Nat).count = 5) :=
  ⟨⟨rfl, by decide⟩,
    C4_push_back_growth ⟨1, 1, fun _ => (0 : Nat)⟩ 5 rfl (by decide)⟩

/-- Claim C5, as stated, is false: pop_back on the empty array (count = 0,
the state the claim explicitly includes) wraps the size_t count to
2^64 - 1, which exceeds the capacity 0. -/
theorem C5_pop_back_empty_counterexample :
    (GArray.pop_back ⟨0, 0, fun _ => (0 : Nat)⟩).count = W - 1 ∧
    ¬ ((GArray.pop_back ⟨0, 0, fun _ => (0 : Nat)⟩).count ≤
        (GArray.pop_back ⟨0, 0, fun _ => (0 : Nat)⟩).cap) := by
  decide

/-- Claim C5 (amended): on every machine-representable state satisfying
count ≤ capacity (capacity a size_t value, count below 2^63 so that the
size_t arithmetic in push_back cannot wrap), push_back, resize, reserve and
clear preserve count ≤ capacity; pop_back preserves it when count > 0, and
violates it on the empty state, where the size_t decrement wraps count to
2^64 - 1 (C5_pop_back_empty_counterexample). -/
theorem C5_operations_preserve_count_le_cap {T : Type} [Inhabited T]
    (a : GArray T) (d : T) (s : Nat)
    (hinv : a.count ≤ a.cap) (hcap : a.cap < W) (hcnt : a.count < 2 ^ 63) :
    a.clear.count ≤ a.clear.cap ∧
    (a.reserve s).count ≤ (a.reserve s).cap ∧
    (a.resize s).count ≤ (a.resize s).cap ∧
    (a.push_back d).count ≤ (a.push_back d).cap ∧
    (0 < a.count → a.pop_back.count ≤ a.pop_back.cap) := by
  unfold W at hcap
  have hpow : (2 : Nat) ^ 64 = 2 * 2 ^ 63 := by norm_num
  refine ⟨?_, ?_, ?_, ?_, ?_⟩
  · unfold GArray.clear
    dsimp only
    exact Nat.zero_le _
  · rw [GArray.reserve_count, GArray.reserve_cap]
    omega
  · rw [GArray.resize_count, GArray.resize_cap]
    omega
  · simp only [GArray.push_back]
    split_ifs with hge hz
    · dsimp only
      have hmod : (2 * a.count) % W = 2 * a.count := by
        apply Nat.mod_eq_of_lt
        unfold W
        omega
      rw [hmod, GArray.resize_cap]
      have hmod1 : (a.count + 1) % W = a.count + 1 := by
        apply Nat.mod_eq_of_lt
        unfold W
        omega
      rw [hmod1]
      omega
    · dsimp only
      rw [GArray.resize_cap]
      have hmod1 : (a.count + 1) % W = a.count + 1 := by
        apply Nat.mod_eq_of_lt
        unfold W
        omega
      rw [hmod1]
      omega
    · have hmod1 : (a.count + 1) % W = a.count + 1 := by
        apply Nat.mod_eq_of_lt
        unfold W
        omega
      rw [hmod1]
      omega
  · intro hpos
    unfold GArray.pop_back W
    dsimp only
    have hmod : (a.count + (2 ^ 64 - 1)) % 2 ^ 64 = a.count - 1 := by
      omega
    rw [hmod]
    omega

/-- Witness for C5 at the concrete state count = 1, capacity = 2. -/
theorem C5_operations_preserve_count_le_cap_witness :
    ((⟨1, 2, fun _ => (0 : Nat)⟩ : GArray Nat).count ≤
        (⟨1, 2, fun _ => (0 : Nat)⟩ : GArray Nat).cap ∧
      (⟨1, 2, fun _ => (0 : Nat)⟩ : GArray Nat).cap < W ∧
      (⟨1, 2, fun _ => (0 : Nat)⟩ : GArray Nat).count < 2 ^ 63) ∧
    ((⟨1, 2, fun _ => (0 : Nat)⟩ : GArray Nat).clear.count ≤
        (⟨1, 2, fun _ => (0 : Nat)⟩ : GArray Nat).clear.cap ∧
      (GArray.reserve ⟨1, 2, fun _ => (0 : Nat)⟩ 3).count ≤
        (GArray.reserve ⟨1, 2, fun _ => (0 : Nat)⟩ 3).cap ∧
      (GArray.resize ⟨1, 2, fun _ => (0 : Nat)⟩ 3).count ≤
        (GArray.resize ⟨1, 2, fun _ => (0 : Nat)⟩ 3).cap ∧
      (GArray.push_back ⟨1, 2, fun _ => (0 : Nat)⟩ 5).count ≤
        (GArray.push_back ⟨1, 2, fun _ => (0 : Nat)⟩ 5).cap ∧
      (0 < (⟨1, 2, fun _ => (0 : Nat)⟩ : GArray Nat).count →
        (⟨1, 2, fun _ => (0 : Nat)⟩ : GArray Nat).pop_back.count ≤
          (⟨1, 2, fun _ => (0 : Nat)⟩ : GArray Nat).pop_back.cap)) :=
  ⟨⟨by decide, by decide, by decide⟩,
    C5_operations_preserve_count_le_cap ⟨1, 2, fun _ => (0 : Nat)⟩ 5 3
      (by decide) (by decide) (by decide)⟩

/-! ## Theorems for the scanner and conversion claims. -/

/-- Claim C2: Tokenize on the empty buffer (size 0, cursor 0) is claimed to
return success = true with no tokens; the source function is an
unimplemented stub that unconditionally returns success = false with
errorLocation = 2 and no tokens, contradicting the claim and the spec
sentence it comes from. -/
theorem C2_tokenize_stub_fails_on_empty :
    (Tokenize ⟨fun _ => Char.ofNat 0, 0, 0⟩).success = false ∧
    (Tokenize ⟨fun _ => Char.ofNat 0, 0, 0⟩).errorLocation = 2 ∧
    (Tokenize ⟨fun _ => Char.ofNat 0, 0, 0⟩).tokens = [] :=
  ⟨rfl, rfl, rfl⟩

/-- Claim C9: on a buffer whose remaining text is exactly the two-character
literal "==" (the first conjunct checks character-by-character that the
text at the cursor matches the word), CompareWordAndSkip is claimed to
succeed and consume the literal; it returns false and leaves the cursor
unmoved, because its guard cursor + length < size is strict and here
cursor + length = size. -/
theorem C9_exact_tail_literal_never_matches :
    (List.range 2).all
      (fun i => (⟨fun j => if j < 2 then '=' else Char.ofNat 0, 2, 0⟩ : Buffer).data
          (0 + i) == (['=', '='].getD i default)) = true ∧
    (CompareWordAndSkip ⟨fun j => if j < 2 then '=' else Char.ofNat 0, 2, 0⟩
      ['=', '=']).1 = false ∧
    (CompareWordAndSkip ⟨fun j => if j < 2 then '=' else Char.ofNat 0, 2, 0⟩
      ['=', '=']).2.cursor = 0 := by
  decide

/-- Claim C10, as stated, is false: on the one-character buffer holding a
single backslash (cursor 0 < size 1) the comment check reads index 0,
finds a backslash, and then reads index 1 = size, past the end of the
buffer. -/
theorem C10_read_past_end_counterexample :
    ¬ (∀ i ∈ SkipSingleLineCommentReads ⟨fun _ => '\\', 1, 0⟩,
        i < (⟨fun _ => '\\', 1, 0⟩ : Buffer).size) := by
  decide

theorem SkipToNextLineReads_lt (fuel : Nat) (b : Buffer) :
    ∀ i ∈ SkipToNextLineReads fuel b, i < b.size := by
  induction fuel generalizing b with
  | zero =>
    intro i hi
    simp only [SkipToNextLineReads] at hi
    exact absurd hi (List.not_mem_nil i)
  | succ fuel ih =>
    intro i hi
    simp only [SkipToNextLineReads] at hi
    split_ifs at hi with h1 h2
    · rcases List.mem_cons.mp hi with rfl | hi
      · exact h1
      · exact ih { b with cursor := b.cursor + 1 } i hi
    · have := List.mem_singleton.mp hi
      subst this
      exact h1
    · exact absurd hi (List.not_mem_nil i)

/-- Claim C10 (amended): for every buffer with cursor < size, every index
SkipSingleLineComment reads is at most size; it reads the one-past-the-end
index size exactly in the case data[cursor] is a backslash with
cursor = size - 1 (C10_read_past_end_counterexample), because the second
character of the comment marker is read without a bounds check; for
buffers created from NUL-terminated strings that byte is the terminator.
All reads inside the comment body (SkipToNextLine) are strictly below
size. -/
theorem C10_comment_skip_reads_bounded (b : Buffer) (h : b.cursor < b.size) :
    ∀ i ∈ SkipSingleLineCommentReads b, i ≤ b.size := by
  intro i hi
  unfold SkipSingleLineCommentReads at hi
  split_ifs at hi with h1 h2
  · rcases List.mem_cons.mp hi with rfl | hi
    · omega
    · rcases List.mem_cons.mp hi with rfl | hi
      · omega
      · have hlt := SkipToNextLineReads_lt (b.size - (b.cursor + 2))
          { b with cursor := b.cursor + 2 } i hi
        dsimp only at hlt
        omega
  · rcases List.mem_cons.mp hi with rfl | hi
    · omega
    · have := List.mem_singleton.mp hi
      omega
  · have := List.mem_singleton.mp hi
    omega

/-- Witness for C10 at the one-character backslash buffer. -/
theorem C10_comment_skip_reads_bounded_witness :
    (0 : Nat) < 1 ∧
    (∀ i ∈ SkipSingleLineCommentReads ⟨fun _ => '\\', 1, 0⟩,
      i ≤ (⟨fun _ => '\\', 1, 0⟩ : Buffer).size) :=
  ⟨by decide, C10_comment_skip_reads_bounded ⟨fun _ => '\\', 1, 0⟩ (by decide)⟩

/-- Claim C7, as stated, is false: on the unterminated literal buffer with
text a double quote followed by one character (size 2), the string-literal
branch is taken and the final unconditional cursor++ (meant to step over
the closing quote) leaves cursor = 3 = size + 1 > size. -/
theorem C7_unterminated_literal_cursor_overflow :
    (ParseStringLiteral ⟨fun i => if i = 0 then '"' else 'a', 2, 0⟩).2.1.cursor = 3 ∧
    ¬ ((ParseStringLiteral ⟨fun i => if i = 0 then '"' else 'a', 2, 0⟩).2.1.cursor ≤
        (⟨fun i => if i = 0 then '"' else 'a', 2, 0⟩ : Buffer).size) := by
  decide

theorem ParseStringLiteralLoop_cursor (fuel : Nat) (b : Buffer) (acc : List Char) :
    (ParseStringLiteralLoop fuel b acc).1.size = b.size ∧
    b.cursor ≤ (ParseStringLiteralLoop fuel b acc).1.cursor ∧
    (b.cursor ≤ b.size → (ParseStringLiteralLoop fuel b acc).1.cursor ≤ b.size) := by
  induction fuel generalizing b acc with
  | zero => exact ⟨rfl, Nat.le_refl _, fun h2 => h2⟩
  | succ fuel ih =>
    unfold ParseStringLiteralLoop
    split_ifs with h
    · have hrec := ih { b with cursor := b.cursor + 1 } (acc ++ [Peek b])
      dsimp only at hrec
      refine ⟨hrec.1, by omega, ?_⟩
      intro hbs
      exact hrec.2.2 (by omega)
    · exact ⟨rfl, Nat.le_refl _, fun h2 => h2⟩

/-- Claim C7 (amended): whenever ParseStringLiteral takes the
string-literal branch on a buffer with cursor < size, the resulting cursor
never decreases and satisfies cursor ≤ size + 1; the value size + 1 is
reached exactly on an unterminated literal, where the final cursor++
overshoots the end (C7_unterminated_literal_cursor_overflow refutes the
claimed bound cursor ≤ size). -/
theorem C7_string_literal_cursor_bounds (b : Buffer)
    (h : b.cursor < b.size) (hq : Peek b = '"') :
    b.cursor ≤ (ParseStringLiteral b).2.1.cursor ∧
    (ParseStringLiteral b).2.1.cursor ≤ b.size + 1 := by
  unfold ParseStringLiteral
  rw [if_pos hq]
  dsimp only
  have hl := ParseStringLiteralLoop_cursor (b.size - (b.cursor + 1))
    { b with cursor := b.cursor + 1 } []
  dsimp only at hl
  have h1 := hl.2.1
  have h2 := hl.2.2 (by omega)
  constructor
  · omega
  · omega

/-- Witness for C7 at the terminated literal buffer with text a quote, one
character, a quote (size 3). -/
theorem C7_string_literal_cursor_bounds_witness :
    ((0 : Nat) < 3 ∧
      Peek ⟨fun i => if i = 0 then '"' else if i = 1 then 'a' else '"', 3, 0⟩ = '"') ∧
    ((0 : Nat) ≤ (ParseStringLiteral
        ⟨fun i => if i = 0 then '"' else if i = 1 then 'a' else '"', 3, 0⟩).2.1.cursor ∧
      (ParseStringLiteral
        ⟨fun i => if i = 0 then '"' else if i = 1 then 'a' else '"', 3, 0⟩).2.1.cursor ≤
        3 + 1) :=
  ⟨⟨by decide, by decide⟩,
    C7_string_literal_cursor_bounds
      ⟨fun i => if i = 0 then '"' else if i = 1 then 'a' else '"', 3, 0⟩
      (by decide) (by decide)⟩

/-- Claim C6: StringToInt("-5") is claimed to yield -5; it yields 25,
because the accumulation loop includes the '-' character itself as the
digit value '-' - '0' = -3 (giving -3 * 10 + 5 = -25) before the final
negation.  StringToFloat has no sign handling at all: "-5" yields -25
with success, and the double-sign input "--5", which the claim says must
be rejected, is accepted. -/
theorem C6_minus_sign_mishandled :
    StringToInt ['-', '5'] = some 25 ∧ (25 : Int) ≠ -5 ∧
    StringToFloat ['-', '5'] = some (-25) ∧ ((-25 : ℚ) ≠ (-5 : ℚ)) ∧
    (StringToFloat ['-', '-', '5']).isSome = true := by
  refine ⟨by decide, by decide, ?_, by norm_num, ?_⟩
  · unfold StringToFloat
    rw [if_neg (by decide : ¬ ((['-', '5'] : List Char).length = 0))]
    rw [show dotScan (['-', '5'] : List Char).length ['-', '5'] 0
        (['-', '5'] : List Char).length = some 2 from by decide]
    dsimp only
    rw [show (2 + (W - 1)) % W = 1 from by decide]
    simp [floatLoop]
    rw [show (1 + (W - 1)) % W = 0 from by decide]
    norm_num [show '-'.toNat = 45 from rfl, show '5'.toNat = 53 from rfl]
  · rfl

/-- Claim C1: StringToFloat is claimed to compute the denoted numeric value
for every digit string with at most one '.'; on the claim's own example
"3.5" it returns a value but that value is 3 + 5 * 10^(2^64 - 1), not 3.5:
the size_t power underflows at the decimal point (the assignment
power = -1 stores 2^64 - 1, and the power < 0 rescue branch of the source
is dead code because power is unsigned), so the fractional digit is
weighted 10^(2^64 - 1) instead of 1/10, and the round-trip property fails
by an astronomical margin (ParseFloat, which collects the digits and calls
StringToFloat, inherits the same value). -/
theorem C1_stringToFloat_fractional_weight_bug :
    StringToFloat ['3', '.', '5'] = some (3 + 5 * 10 ^ (W - 1)) ∧
    (3 + 5 * 10 ^ (W - 1) : ℚ) ≠ 7 / 2 := by
  constructor
  · unfold StringToFloat
    rw [if_neg (by decide : ¬ ((['3', '.', '5'] : List Char).length = 0))]
    rw [show dotScan (['3', '.', '5'] : List Char).length ['3', '.', '5'] 0
        (['3', '.', '5'] : List Char).length = some 1 from by decide]
    dsimp only
    rw [show (1 + (W - 1)) % W = 0 from by decide]
    simp [floatLoop]
  · have hX : (1 : ℚ) ≤ 10 ^ (W - 1) := one_le_pow₀ (by norm_num)
    intro h
    linarith

end AhmedLab
